import Mathlib

/-!
Verification of the sdrpp-noise-reduction streaming audio pipeline.

Shallow embedding of the Python sources in `src/sdrpp_noise_reduction/`:
audio samples are modelled as exact rationals (`ℚ`), audio frames as
`List ℚ`, the bounded `queue.Queue` as a capacity-indexed list with the
sequential semantics of `put` / `get_nowait`, and each stateful module as
explicit state passing.  External delegated computations (scipy filter
design and filtering, the `noisereduce` transform, the real-valued RMS/dB
comparison and `10^(x/20)`) are modelled as oracle functions collected in
a structure `DSPExt`, exactly as the spec treats them: a functional
contract whose internals are out of scope.
-/

namespace SDRPP

/-! ## utils.py -/

/-- Model of `put_with_drop_on_full` from `utils.py`, sequential semantics.
Python: `q.put(item, timeout)`; on `queue.Full`, `q.get_nowait()` (evict the
oldest) then `q.put(item, timeout)` again.  Run sequentially (no concurrent
consumer), `put` raises `Full` exactly when `q.length` has reached the
capacity; the queue is then nonempty (capacity ≥ 1), so `get_nowait`
succeeds and the second `put` succeeds.  A Python `Queue(maxsize=0)` is
unbounded; the model is used with capacity ≥ 1 as the program does. -/
def put_with_drop_on_full {α : Type} (cap : ℕ) (q : List α) (item : α) : List α :=
  if q.length < cap then q ++ [item]
  else
    match q with
    | [] => []
    | _ :: t => t ++ [item]

/-- Sequentially push a list of items through `put_with_drop_on_full`. -/
def pushSeq {α : Type} (cap : ℕ) (items : List α) : List α :=
  items.foldl (fun q x => put_with_drop_on_full cap q x) []

/-! ## audio_output.py -/

/-- The collection loop of `audio_callback` in `audio_output.py`:
`while len(audio_buffer) < frames:` dequeue a processed chunk and append it;
on `queue.Empty`, append `frames - len(audio_buffer)` zeros and break.
Returns the buffer after the loop, the chunks still queued, and whether the
`queue.Empty` branch executed (i.e. silence was padded in). -/
def fillBuffer (frames : ℕ) (buffer : List ℚ) (q : List (List ℚ)) :
    List ℚ × List (List ℚ) × Bool :=
  if frames ≤ buffer.length then (buffer, q, false)
  else
    match q with
    | [] => (buffer ++ List.replicate (frames - buffer.length) 0, [], true)
    | chunk :: rest => fillBuffer frames (buffer ++ chunk) rest

/-- The delivery part of `audio_callback`: after the collection loop, if the
buffer holds at least `frames` samples, deliver its first `frames` samples
and retain the rest; otherwise (`np.pad` branch) deliver the buffer padded
with zeros to `frames` and reset the leftover to empty.  Returns
(delivered samples, new leftover buffer, remaining queue, padded?). -/
def audio_callback (frames : ℕ) (buffer : List ℚ) (q : List (List ℚ)) :
    List ℚ × List ℚ × List (List ℚ) × Bool :=
  let r := fillBuffer frames buffer q
  if frames ≤ r.1.length then
    (r.1.take frames, r.1.drop frames, r.2.1, r.2.2)
  else
    (r.1 ++ List.replicate (frames - r.1.length) 0, [], r.2.1, r.2.2)

/-! ## config.py -/

/-- Python `int(value)` applied to a float: truncation toward zero. -/
def ratTrunc (q : ℚ) : ℤ :=
  if 0 ≤ q then ⌊q⌋ else ⌈q⌉

/-- The field set of `NoiseReductionConfig` in `config.py` (the mutex is a
concurrency artefact with no sequential content; `get_all` returns exactly
these fields, so the snapshot dict and the store share this structure).
`noise_profile_samples` is an integer after the `int(value)` in its setter. -/
structure NoiseReductionConfig where
  prop_decrease : ℚ
  voice_low_freq : ℚ
  voice_high_freq : ℚ
  spectral_gate_threshold_db : ℚ
  noise_profile_samples : ℤ
  n_std_thresh_stationary : ℚ
  use_bandpass : Bool
  use_spectral_gating : Bool
  use_stationary_mode : Bool
  voice_gain_db : ℚ
  noise_reduction_enabled : Bool
deriving DecidableEq, Repr

/-- Default-constructed configuration (`NoiseReductionConfig.__init__`
defaults; the two frequency defaults live in the out-of-src `constants.py`,
their values are immaterial to every theorem below). -/
def defaultConfig : NoiseReductionConfig :=
  { prop_decrease := 0.95
    voice_low_freq := 300
    voice_high_freq := 3000
    spectral_gate_threshold_db := -35
    noise_profile_samples := 5
    n_std_thresh_stationary := 2.5
    use_bandpass := true
    use_spectral_gating := false
    use_stationary_mode := true
    voice_gain_db := 0
    noise_reduction_enabled := true }

/-- Setter `prop_decrease`: stores `max(0.0, min(1.0, value))`. -/
def set_prop_decrease (c : NoiseReductionConfig) (v : ℚ) : NoiseReductionConfig :=
  { c with prop_decrease := max 0 (min 1 v) }

/-- Setter `voice_low_freq`: stores the value unmodified. -/
def set_voice_low_freq (c : NoiseReductionConfig) (v : ℚ) : NoiseReductionConfig :=
  { c with voice_low_freq := v }

/-- Setter `voice_high_freq`: stores the value unmodified. -/
def set_voice_high_freq (c : NoiseReductionConfig) (v : ℚ) : NoiseReductionConfig :=
  { c with voice_high_freq := v }

/-- Setter `spectral_gate_threshold_db`: stores the value unmodified. -/
def set_spectral_gate_threshold_db (c : NoiseReductionConfig) (v : ℚ) : NoiseReductionConfig :=
  { c with spectral_gate_threshold_db := v }

/-- Setter `noise_profile_samples`: stores `max(1, int(value))`. -/
def set_noise_profile_samples (c : NoiseReductionConfig) (v : ℚ) : NoiseReductionConfig :=
  { c with noise_profile_samples := max 1 (ratTrunc v) }

/-- Setter `n_std_thresh_stationary`: stores the value unmodified. -/
def set_n_std_thresh_stationary (c : NoiseReductionConfig) (v : ℚ) : NoiseReductionConfig :=
  { c with n_std_thresh_stationary := v }

/-- Setter `use_bandpass`: stores `bool(value)` (callers pass a Bool). -/
def set_use_bandpass (c : NoiseReductionConfig) (v : Bool) : NoiseReductionConfig :=
  { c with use_bandpass := v }

/-- Setter `use_spectral_gating`: stores `bool(value)`. -/
def set_use_spectral_gating (c : NoiseReductionConfig) (v : Bool) : NoiseReductionConfig :=
  { c with use_spectral_gating := v }

/-- Setter `use_stationary_mode`: stores `bool(value)`. -/
def set_use_stationary_mode (c : NoiseReductionConfig) (v : Bool) : NoiseReductionConfig :=
  { c with use_stationary_mode := v }

/-- Setter `voice_gain_db`: stores `max(-20.0, min(20.0, value))`. -/
def set_voice_gain_db (c : NoiseReductionConfig) (v : ℚ) : NoiseReductionConfig :=
  { c with voice_gain_db := max (-20) (min 20 v) }

/-- Setter `noise_reduction_enabled`: stores `bool(value)`. -/
def set_noise_reduction_enabled (c : NoiseReductionConfig) (v : Bool) : NoiseReductionConfig :=
  { c with noise_reduction_enabled := v }

/-! ## audio_processor.py -/

/-- Sample rate from the file `constants.py` of the repository (not shipped under
`src/`; the spec fixes one configured rate).  Its concrete value is passed
opaquely to the delegated noise-reduction routine and never inspected by
any theorem below. -/
def SAMPLE_RATE : ℚ := 48000

/-- The delegated external computations of the DSP chain, as the functional
contracts the spec assigns to them (scipy filter synthesis/filtering, the
`noisereduce` transform, and the real-valued quantities `10^(x/20)` and the
RMS-dB threshold comparison, which are irrational-valued and therefore kept
abstract).  Theorems quantify over this structure. -/
structure DSPExt where
  /-- Oracle for `scipy_signal.butter(4, [low, high], btype=band)` → `(b, a)`. -/
  butter : ℚ → ℚ → List ℚ × List ℚ
  /-- Oracle for `scipy_signal.lfilter_zi(b, a)` → initial filter state. -/
  lfilter_zi : List ℚ → List ℚ → List ℚ
  /-- Oracle for `scipy_signal.lfilter(b, a, audio, zi)` → `(filtered, new_state)`. -/
  lfilter : List ℚ → List ℚ → List ℚ → List ℚ → List ℚ × List ℚ
  /-- Oracle for `nr.reduce_noise(y, y_noise, sr, stationary=True, prop_decrease,
  n_std_thresh_stationary)` (the sample rate is fixed). -/
  reduce_noise_stationary : List ℚ → List ℚ → ℚ → ℚ → List ℚ
  /-- Oracle for `nr.reduce_noise(y, sr, stationary=False, prop_decrease)`. -/
  reduce_noise_adaptive : List ℚ → ℚ → List ℚ
  /-- Oracle for `10.0 ** (x / 20.0)`. -/
  pow10div20 : ℚ → ℚ
  /-- Oracle for `20*log10(sqrt(mean(audio**2)) + 1e-10) < threshold_db`. -/
  rms_db_lt : List ℚ → ℚ → Bool

/-- The clamp `max(0.01, min(x, 0.99))` applied to each Nyquist-normalized
cutoff in `get_bandpass_filter_coeffs`. -/
def clampCutoff (x : ℚ) : ℚ :=
  max (1/100) (min x (99/100))

/-- The module-level filter cache of `audio_processor.py`:
`bandpass_filter_cache_key`, `bandpass_filter_coeffs`,
`bandpass_filter_state`. -/
structure FilterCache where
  cache_key : Option (ℚ × ℚ × ℚ)
  coeffs : Option (List ℚ × List ℚ)
  fstate : Option (List ℚ)
deriving DecidableEq, Repr

/-- The empty filter cache (all three globals `None` at module load). -/
def emptyFilterCache : FilterCache :=
  { cache_key := none, coeffs := none, fstate := none }

/-- Model of `get_bandpass_filter_coeffs(low_freq, high_freq, sample_rate)`:
invalidate the cache when the key tuple changed; on a cache miss, normalize
the cutoffs by the Nyquist frequency, clamp each with `clampCutoff`, bypass
(return `None`) when clamped low ≥ clamped high, otherwise design the
filter and its initial state via the external oracles and cache them.
Returns (coefficients, filter state, updated cache). -/
def get_bandpass_filter_coeffs (ext : DSPExt) (fc : FilterCache)
    (low_freq high_freq sample_rate : ℚ) :
    Option (List ℚ × List ℚ) × Option (List ℚ) × FilterCache :=
  let fc :=
    if fc.cache_key = some (low_freq, high_freq, sample_rate) then fc
    else { cache_key := some (low_freq, high_freq, sample_rate),
           coeffs := none, fstate := none }
  match fc.coeffs with
  | some c => (some c, fc.fstate, fc)
  | none =>
      let nyquist := sample_rate / 2
      let low := clampCutoff (low_freq / nyquist)
      let high := clampCutoff (high_freq / nyquist)
      if high ≤ low then (none, none, fc)
      else
        let ba := ext.butter low high
        let zi := ext.lfilter_zi ba.1 ba.2
        (some ba, some zi, { fc with coeffs := some ba, fstate := some zi })

/-- Model of `apply_bandpass_filter(audio, low_freq, high_freq, sample_rate)`:
fetch/design the coefficients; if `None` (bypass) return the input
unchanged; otherwise run `lfilter` with the cached state and store the new
state back. -/
def apply_bandpass_filter (ext : DSPExt) (fc : FilterCache) (audio : List ℚ)
    (low_freq high_freq sample_rate : ℚ) : List ℚ × FilterCache :=
  let r := get_bandpass_filter_coeffs ext fc low_freq high_freq sample_rate
  match r.1 with
  | none => (audio, r.2.2)
  | some ba =>
      let out := ext.lfilter ba.1 ba.2 audio ((r.2.2).fstate.getD [])
      (out.1, { r.2.2 with fstate := some out.2 })

/-- Model of `apply_spectral_gating(audio, threshold_db)`: if the RMS energy of the frame
in dB is below the threshold, attenuate the whole frame to 10% amplitude,
else pass unchanged.  The RMS-dB comparison is the `rms_db_lt` oracle. -/
def apply_spectral_gating (ext : DSPExt) (audio : List ℚ) (threshold_db : ℚ) :
    List ℚ :=
  if ext.rms_db_lt audio threshold_db then audio.map (fun x => x * (1/10))
  else audio

/-- Model of `initialize_noise_profile(audio_data, noise_samples, samples_collected,
samples_needed)`: append the frame, bump the counter; when the counter
reaches `samples_needed`, return the concatenated profile and `True`.
Returns (profile?, initialized, samples_collected, noise_samples). -/
def initialize_noise_profile (audio_data : List ℚ)
    (noise_samples : List (List ℚ)) (samples_collected samples_needed : ℕ) :
    Option (List ℚ) × Bool × ℕ × List (List ℚ) :=
  let ns := noise_samples ++ [audio_data]
  let sc := samples_collected + 1
  if samples_needed ≤ sc then (some ns.flatten, true, sc, ns)
  else (none, false, sc, ns)

/-- The call the noise-reduction stage makes to `nr.reduce_noise`. -/
inductive NRCall where
  | stationary (y y_noise : List ℚ) (prop_decrease n_std_thresh : ℚ)
  | adaptive (y : List ℚ) (prop_decrease : ℚ)
deriving DecidableEq, Repr

/-- The dispatch of `apply_noise_reduction(filtered_audio, cfg)`: stationary
mode iff `use_stationary_mode and noise_profile_initialized and
len(noise_profile) >= len(filtered_audio)`, with noise reference
`noise_profile[:len(filtered_audio)]`; otherwise adaptive mode with only
the frame and `prop_decrease`. -/
def noise_reduction_invocation (filtered_audio : List ℚ)
    (cfg : NoiseReductionConfig) (initialized : Bool) (profile : List ℚ) :
    NRCall :=
  if cfg.use_stationary_mode && initialized
      && decide (filtered_audio.length ≤ profile.length) then
    NRCall.stationary filtered_audio (profile.take filtered_audio.length)
      cfg.prop_decrease cfg.n_std_thresh_stationary
  else
    NRCall.adaptive filtered_audio cfg.prop_decrease

/-- Model of `apply_noise_reduction`: perform the dispatched `nr.reduce_noise` call
through the external oracles. -/
def apply_noise_reduction (ext : DSPExt) (filtered_audio : List ℚ)
    (cfg : NoiseReductionConfig) (initialized : Bool) (profile : List ℚ) :
    List ℚ :=
  match noise_reduction_invocation filtered_audio cfg initialized profile with
  | NRCall.stationary y yn pd th => ext.reduce_noise_stationary y yn pd th
  | NRCall.adaptive y pd => ext.reduce_noise_adaptive y pd

/-- Model of `apply_audio_effects(audio, cfg)`: optional spectral gating, then — when
the voice gain is nonzero — multiplication by `10^(gain_dB/20)`. -/
def apply_audio_effects (ext : DSPExt) (audio : List ℚ)
    (cfg : NoiseReductionConfig) : List ℚ :=
  let audio :=
    if cfg.use_spectral_gating then
      apply_spectral_gating ext audio cfg.spectral_gate_threshold_db
    else audio
  if cfg.voice_gain_db ≠ 0 then
    audio.map (fun x => x * ext.pow10div20 cfg.voice_gain_db)
  else audio

/-- Model of `finalize_audio(audio)`: coerce to float32 and `np.clip(audio, -1, 1)`.
Samples are exact rationals here, so the dtype coercion is the identity;
the clip is exact. -/
def finalize_audio (audio : List ℚ) : List ℚ :=
  audio.map (fun x => max (-1) (min 1 x))

/-- The processing-task state threaded through `process_audio_chunk`: the
module globals `noise_profile_initialized` / `noise_profile` and the filter
cache, plus the loop-local `noise_samples` list and `samples_collected`
counter (mutated in place / returned by the Python function). -/
structure ProcState where
  noise_profile_initialized : Bool
  noise_profile : List ℚ
  noise_samples : List (List ℚ)
  samples_collected : ℕ
  filter_cache : FilterCache
deriving DecidableEq, Repr

/-- The processing-task state at the start of `process_audio` (profile not
initialized, no accumulated samples, empty filter cache). -/
def initProcState : ProcState :=
  { noise_profile_initialized := false
    noise_profile := []
    noise_samples := []
    samples_collected := 0
    filter_cache := emptyFilterCache }

/-- Model of `process_audio_chunk(audio_data, cfg, noise_samples, samples_collected,
samples_needed)`: master-switch early return (finalize only); otherwise
profile accumulation while collecting, optional bandpass, noise reduction,
effects, finalization.  Returns (processed frame, new state). -/
def process_audio_chunk (ext : DSPExt) (audio_data : List ℚ)
    (cfg : NoiseReductionConfig) (samples_needed : ℕ) (st : ProcState) :
    List ℚ × ProcState :=
  if !cfg.noise_reduction_enabled then
    (finalize_audio audio_data, st)
  else
    let st :=
      if !st.noise_profile_initialized then
        match initialize_noise_profile audio_data st.noise_samples
            st.samples_collected samples_needed with
        | (newProfile, inited, sc, ns) =>
          if inited then
            { st with noise_profile_initialized := true,
                      noise_profile := newProfile.getD [],
                      samples_collected := sc, noise_samples := ns }
          else
            { st with samples_collected := sc, noise_samples := ns }
      else st
    let fb :=
      if cfg.use_bandpass then
        apply_bandpass_filter ext st.filter_cache audio_data
          cfg.voice_low_freq cfg.voice_high_freq SAMPLE_RATE
      else (audio_data, st.filter_cache)
    let st := { st with filter_cache := fb.2 }
    let processed := apply_noise_reduction ext fb.1 cfg
      st.noise_profile_initialized st.noise_profile
    let processed := apply_audio_effects ext processed cfg
    (finalize_audio processed, st)

/-- Iterate `process_audio_chunk` over a list of dequeued raw frames, as
the `process_audio` loop does with a fixed snapshot and fixed
`samples_needed`, returning the final processing state. -/
def run_chunks (ext : DSPExt) (cfg : NoiseReductionConfig)
    (samples_needed : ℕ) (chunks : List (List ℚ)) (st : ProcState) :
    ProcState :=
  chunks.foldl
    (fun s c => (process_audio_chunk ext c cfg samples_needed s).2) st

/-! ## commands.py -/

/-- Helper for `pySplit`: scan the characters, splitting on whitespace
runs and discarding empty pieces (`cur` is the current token reversed). -/
def wsSplit (cs : List Char) (cur : List Char) : List String :=
  match cs with
  | [] => if cur.isEmpty then [] else [String.mk cur.reverse]
  | c :: rest =>
      if c.isWhitespace then
        if cur.isEmpty then wsSplit rest []
        else String.mk cur.reverse :: wsSplit rest []
      else wsSplit rest (c :: cur)

/-- Model of `cmd.strip().split()`: Python whitespace split, discarding empty
pieces (which subsumes the leading `strip`). -/
def pySplit (cmd : String) : List String :=
  wsSplit cmd.data []

/-- Python `str.lower()`, character-wise. -/
def pyLower (s : String) : String :=
  String.mk (s.data.map Char.toLower)

/-- The observable console effect of one `handle_command` call (each
constructor is one `print` site in `commands.py`; format placeholders of
the Python message templates are elided, the template identity and the
printed value are kept). -/
inductive CmdOutput where
  | noOutput
  | helpText
  | statusText (cfg : NoiseReductionConfig)
  | usageMsg (usage : String)
  | successMsg (template : String) (value : ℚ)
  | toggleMsg (msg : String)
  | errorMsg (msg : String)
  | invalidNumber
  | unknownCommand (command : String)
deriving DecidableEq, Repr

/-- Model of `handle_numeric_command(parts, usage, validator, setter, success_msg,
error_msg)`: usage hint when no argument; `float(parts[1])` via the
`parseFloat` oracle (Python `float()`, `None` models `ValueError`);
validated values are stored via the setter, rejected ones print the error
message when one was supplied.  Always returns `True` (continue). -/
def handle_numeric_command (parseFloat : String → Option ℚ)
    (parts : List String) (usage : String) (validator : ℚ → Bool)
    (setter : ℚ → NoiseReductionConfig) (success_msg : String)
    (error_msg : Option String) (cfg : NoiseReductionConfig) :
    Bool × NoiseReductionConfig × CmdOutput :=
  match parts with
  | [] => (true, cfg, CmdOutput.usageMsg usage)
  | [_] => (true, cfg, CmdOutput.usageMsg usage)
  | _ :: arg :: _ =>
    match parseFloat arg with
    | none => (true, cfg, CmdOutput.invalidNumber)
    | some v =>
      if validator v then (true, setter v, CmdOutput.successMsg success_msg v)
      else
        match error_msg with
        | some m => (true, cfg, CmdOutput.errorMsg m)
        | none => (true, cfg, CmdOutput.noOutput)

/-- Model of `handle_toggle_command(parts, usage, setter, enabled_msg,
disabled_msg)`: `on/1/true/enable` sets `True`, `off/0/false/disable` sets
`False`, anything else prints the usage hint.  Always returns `True`. -/
def handle_toggle_command (parts : List String) (usage : String)
    (setter : Bool → NoiseReductionConfig) (enabled_msg disabled_msg : String)
    (cfg : NoiseReductionConfig) : Bool × NoiseReductionConfig × CmdOutput :=
  match parts with
  | [] => (true, cfg, CmdOutput.usageMsg usage)
  | [_] => (true, cfg, CmdOutput.usageMsg usage)
  | _ :: arg :: _ =>
    let v := pyLower arg
    if v = "on" ∨ v = "1" ∨ v = "true" ∨ v = "enable" then
      (true, setter true, CmdOutput.toggleMsg enabled_msg)
    else if v = "off" ∨ v = "0" ∨ v = "false" ∨ v = "disable" then
      (true, setter false, CmdOutput.toggleMsg disabled_msg)
    else
      (true, cfg, CmdOutput.usageMsg usage)

/-- The list of recognized first tokens of `handle_command` (lowercased). -/
def recognizedCommands : List String :=
  ["/quit", "/exit", "/q", "/help", "/h", "/status", "/s",
   "/noise_reduction", "/nr", "/voice_low", "/vl", "/voice_high", "/vh",
   "/voice_gain", "/vg", "/spectral_gate", "/sg",
   "/stationary_threshold", "/st", "/bandpass", "/bp",
   "/spectral_gating", "/spg", "/stationary", "/stat", "/noise"]

/-- The dispatch of `handle_command` on the already-split `parts` list:
branch on the lowercased first token, returning (continue?, new config,
console effect).  `False` means quit.  Unknown commands print
`Unknown command: ...` and continue. -/
def dispatch_command (parseFloat : String → Option ℚ) (parts : List String)
    (cfg : NoiseReductionConfig) : Bool × NoiseReductionConfig × CmdOutput :=
  match parts with
  | [] => (true, cfg, CmdOutput.noOutput)
  | command0 :: _ =>
    let command := pyLower command0
    if command = "/quit" ∨ command = "/exit" ∨ command = "/q" then
      (false, cfg, CmdOutput.noOutput)
    else if command = "/help" ∨ command = "/h" then
      (true, cfg, CmdOutput.helpText)
    else if command = "/status" ∨ command = "/s" then
      (true, cfg, CmdOutput.statusText cfg)
    else if command = "/noise_reduction" ∨ command = "/nr" then
      handle_numeric_command parseFloat parts "/noise_reduction <0.0-1.0>"
        (fun v => decide (0 ≤ v ∧ v ≤ 1)) (set_prop_decrease cfg)
        "Noise reduction set"
        (some "Error: Noise reduction must be between 0.0 and 1.0") cfg
    else if command = "/voice_low" ∨ command = "/vl" then
      handle_numeric_command parseFloat parts "/voice_low <Hz>"
        (fun v => decide (0 ≤ v ∧ v < cfg.voice_high_freq))
        (set_voice_low_freq cfg) "Voice low frequency set"
        (some "Error: Must be between 0 and the current high frequency") cfg
    else if command = "/voice_high" ∨ command = "/vh" then
      handle_numeric_command parseFloat parts "/voice_high <Hz>"
        (fun v => decide (cfg.voice_low_freq < v ∧ v ≤ SAMPLE_RATE / 2))
        (set_voice_high_freq cfg) "Voice high frequency set"
        (some "Error: Must be between the current low frequency and Nyquist") cfg
    else if command = "/voice_gain" ∨ command = "/vg" then
      handle_numeric_command parseFloat parts "/voice_gain <dB> (range: -20 to +20)"
        (fun v => decide (-20 ≤ v ∧ v ≤ 20)) (set_voice_gain_db cfg)
        "Voice gain set"
        (some "Error: Voice gain must be between -20 and +20 dB") cfg
    else if command = "/spectral_gate" ∨ command = "/sg" then
      handle_numeric_command parseFloat parts "/spectral_gate <dB>"
        (fun _ => true) (set_spectral_gate_threshold_db cfg)
        "Spectral gate threshold set" none cfg
    else if command = "/stationary_threshold" ∨ command = "/st" then
      handle_numeric_command parseFloat parts "/stationary_threshold <value>"
        (fun _ => true) (set_n_std_thresh_stationary cfg)
        "Stationary threshold set" none cfg
    else if command = "/bandpass" ∨ command = "/bp" then
      handle_toggle_command parts "/bandpass <on|off>"
        (set_use_bandpass cfg) "Bandpass filter enabled"
        "Bandpass filter disabled" cfg
    else if command = "/spectral_gating" ∨ command = "/spg" then
      handle_toggle_command parts "/spectral_gating <on|off>"
        (set_use_spectral_gating cfg) "Spectral gating enabled"
        "Spectral gating disabled" cfg
    else if command = "/stationary" ∨ command = "/stat" then
      handle_toggle_command parts "/stationary <on|off>"
        (set_use_stationary_mode cfg) "Stationary mode enabled"
        "Stationary mode disabled" cfg
    else if command = "/noise" then
      handle_toggle_command parts "/noise <on|off>"
        (set_noise_reduction_enabled cfg) "Noise reduction enabled"
        "Noise reduction disabled" cfg
    else
      (true, cfg, CmdOutput.unknownCommand command)

/-- Model of `handle_command(cmd, config)` from `commands.py`:
`parts = cmd.strip().split()`, then dispatch on the parts. -/
def handle_command (parseFloat : String → Option ℚ) (cmd : String)
    (cfg : NoiseReductionConfig) : Bool × NoiseReductionConfig × CmdOutput :=
  dispatch_command parseFloat (pySplit cmd) cfg

/-- A concrete instantiation of the external-computation oracles, used to
evaluate the pipeline on concrete inputs: the filters and the reduction
transform act as identities of the correct length, the gain factor is 1,
and the gate comparison is constantly false. -/
def trivialExt : DSPExt :=
  { butter := fun low high => ([low, high], [1])
    lfilter_zi := fun _ _ => [0]
    lfilter := fun _ _ audio zi => (audio, zi)
    reduce_noise_stationary := fun y _ _ _ => y
    reduce_noise_adaptive := fun y _ => y
    pow10div20 := fun _ => 1
    rms_db_lt := fun _ _ => false }

/-! ## Lemmas about the output assembler -/

/-- The collection loop exits immediately once the buffer satisfies the
request. -/
lemma fillBuffer_of_ge (frames : ℕ) (buffer : List ℚ) (q : List (List ℚ))
    (h : frames ≤ buffer.length) : fillBuffer frames buffer q = (buffer, q, false) := by
  cases q <;> simp [fillBuffer, h]

/-- After the collection loop the buffer always holds at least `frames`
samples (the queue-empty branch pads to exactly `frames`). -/
lemma fillBuffer_length_ge (frames : ℕ) :
    ∀ (q : List (List ℚ)) (buffer : List ℚ),
      frames ≤ (fillBuffer frames buffer q).1.length := by
  intro q
  induction q with
  | nil =>
      intro buffer
      by_cases h : frames ≤ buffer.length
      · simp [fillBuffer, h]
      · simp only [fillBuffer, if_neg h, List.length_append,
          List.length_replicate]
        omega
  | cons chunk rest ih =>
      intro buffer
      by_cases h : frames ≤ buffer.length
      · simp [fillBuffer, h]
      · simpa [fillBuffer, h] using ih (buffer ++ chunk)

/-- The silence-pad branch of the collection loop executes exactly when the
samples available (leftover plus every queued frame) fall short of the
request. -/
lemma fillBuffer_padded_iff (frames : ℕ) :
    ∀ (q : List (List ℚ)) (buffer : List ℚ),
      (fillBuffer frames buffer q).2.2 = true ↔
        buffer.length + (q.map List.length).sum < frames := by
  intro q
  induction q with
  | nil =>
      intro buffer
      by_cases h : frames ≤ buffer.length
      · simp only [fillBuffer_of_ge frames buffer [] h, List.map_nil,
          List.sum_nil, Nat.add_zero]
        constructor
        · intro hfalse; exact absurd hfalse (by simp)
        · intro hlt; omega
      · simp only [fillBuffer, if_neg h, List.map_nil, List.sum_nil,
          Nat.add_zero]
        constructor
        · intro _; omega
        · intro _; trivial
  | cons chunk rest ih =>
      intro buffer
      by_cases h : frames ≤ buffer.length
      · simp only [fillBuffer_of_ge frames buffer (chunk :: rest) h]
        constructor
        · intro hfalse; exact absurd hfalse (by simp)
        · intro hlt; omega
      · have hrec := ih (buffer ++ chunk)
        simp only [List.length_append] at hrec
        simp only [fillBuffer, if_neg h, hrec, List.map_cons, List.sum_cons]
        omega

/-- When the leftover entering the loop is shorter than the request and
every queued frame is no longer than the request, the collected buffer
stays below twice the request. -/
lemma fillBuffer_length_lt (frames : ℕ) :
    ∀ (q : List (List ℚ)) (buffer : List ℚ),
      buffer.length < frames → (∀ c ∈ q, c.length ≤ frames) →
      (fillBuffer frames buffer q).1.length < 2 * frames := by
  intro q
  induction q with
  | nil =>
      intro buffer hb _
      simp only [fillBuffer, if_neg (Nat.not_le.mpr hb), List.length_append,
        List.length_replicate]
      omega
  | cons chunk rest ih =>
      intro buffer hb hc
      simp only [fillBuffer, if_neg (Nat.not_le.mpr hb)]
      by_cases h2 : frames ≤ (buffer ++ chunk).length
      · have hchunk : chunk.length ≤ frames := hc chunk (by simp)
        simp only [fillBuffer_of_ge frames (buffer ++ chunk) rest h2]
        simp only [List.length_append]
        omega
      · exact ih (buffer ++ chunk) (Nat.not_le.mp h2)
          (fun c hmem => hc c (by simp [hmem]))

/-- C1: every invocation of the output callback delivers exactly `frames`
samples to the device — never more, never less — for any leftover-buffer
content and any sequence of enqueued processed-frame lengths; and the
silence-pad branch executes if and only if the samples available (the
leftover plus every queued processed frame) are fewer than `frames`. -/
theorem audio_callback_delivers_exact_frames (frames : ℕ) (buffer : List ℚ)
    (q : List (List ℚ)) :
    (audio_callback frames buffer q).1.length = frames ∧
      ((audio_callback frames buffer q).2.2.2 = true ↔
        buffer.length + (q.map List.length).sum < frames) := by
  have hge := fillBuffer_length_ge frames q buffer
  constructor
  · simp only [audio_callback, if_pos hge, List.length_take]
    omega
  · simp only [audio_callback, if_pos hge]
    exact fillBuffer_padded_iff frames q buffer

/-- C3 counterexample: with a requested frame size of 2, an empty leftover
buffer and a single enqueued processed frame of 5 samples, the callback
retains a leftover of 3 samples after delivery — not fewer than the
requested frame size, refuting the claim for arbitrary enqueued
processed-frame lengths. -/
theorem audio_callback_leftover_counterexample :
    ¬ ((audio_callback 2 [] [[1, 1, 1, 1, 1]]).2.1.length < 2) := by
  decide

/-- C3 (amended): immediately after every delivery the leftover buffer
holds strictly fewer samples than the requested `frames`, provided the
leftover entering the invocation already held fewer than `frames` samples
(true initially and preserved from call to call) and every enqueued
processed-frame length is at most `frames`. -/
theorem audio_callback_leftover_lt_frames (frames : ℕ) (buffer : List ℚ)
    (q : List (List ℚ)) (hbuf : buffer.length < frames)
    (hchunks : ∀ c ∈ q, c.length ≤ frames) :
    (audio_callback frames buffer q).2.1.length < frames := by
  have hge := fillBuffer_length_ge frames q buffer
  have hlt := fillBuffer_length_lt frames q buffer hbuf hchunks
  simp only [audio_callback, if_pos hge, List.length_drop]
  omega

/-- Witness for C3 (amended) at `frames = 2`, empty leftover, one queued
frame of 2 samples. -/
theorem audio_callback_leftover_lt_frames_witness :
    (audio_callback 2 [] [[1, 1]]).2.1.length < 2 :=
  audio_callback_leftover_lt_frames 2 [] [[1, 1]] (by decide) (by decide)

/-! ## Lemmas about the relay queue -/

/-- One drop-on-full push never grows the queue beyond its capacity. -/
lemma put_length_le {α : Type} (C : ℕ) (q : List α) (x : α)
    (h : q.length ≤ C) : (put_with_drop_on_full C q x).length ≤ C := by
  by_cases hlt : q.length < C
  · simp only [put_with_drop_on_full, if_pos hlt, List.length_append,
      List.length_singleton]
    omega
  · cases q with
    | nil =>
        simp only [List.length_nil] at hlt
        simp [put_with_drop_on_full, hlt]
    | cons a t =>
        simp only [put_with_drop_on_full, if_neg hlt, List.length_append,
          List.length_singleton]
        simp only [List.length_cons] at h
        omega

/-- The capacity bound is preserved by any sequence of pushes. -/
lemma foldl_put_length_le {α : Type} (C : ℕ) :
    ∀ (xs : List α) (q : List α), q.length ≤ C →
      (xs.foldl (fun acc x => put_with_drop_on_full C acc x) q).length ≤ C := by
  intro xs
  induction xs with
  | nil => intro q h; simpa using h
  | cons x rest ih =>
      intro q h
      simpa using ih (put_with_drop_on_full C q x) (put_length_le C q x h)

/-- The queue built by any push sequence holds at most `C` items. -/
lemma pushSeq_length_le {α : Type} (C : ℕ) (xs : List α) :
    (pushSeq C xs).length ≤ C :=
  foldl_put_length_le C xs [] (Nat.zero_le C)

/-- Appending one more push to a push sequence. -/
lemma pushSeq_append_singleton {α : Type} (C : ℕ) (xs : List α) (x : α) :
    pushSeq C (xs ++ [x]) = put_with_drop_on_full C (pushSeq C xs) x := by
  simp [pushSeq, List.foldl_append]

/-- While the pushed items fit the capacity, no eviction happens: the queue
is exactly the pushed sequence. -/
lemma pushSeq_eq_self {α : Type} (C : ℕ) :
    ∀ xs : List α, xs.length ≤ C → pushSeq C xs = xs := by
  intro xs
  induction xs using List.reverseRecOn with
  | nil => intro _; rfl
  | append_singleton ys y ih =>
      intro h
      simp only [List.length_append, List.length_singleton] at h
      rw [pushSeq_append_singleton, ih (by omega)]
      simp [put_with_drop_on_full, Nat.lt_of_lt_of_le (Nat.lt_succ_self _) h]

/-- C2: pushing the `C + 1` distinct items `1, 2, …, C+1` through the
drop-on-full push into a queue of capacity `C ≥ 1` yields exactly the items
`2, …, C+1` in FIFO order (item 1 evicted); the queue size never exceeds
`C` after any prefix of the pushes; and each newly pushed item is present
at the tail right after its push (never silently dropped). -/
theorem relay_queue_drop_oldest (C : ℕ) (hC : 1 ≤ C) :
    pushSeq C ((List.range (C + 1)).map (fun i => i + 1)) =
        (List.range C).map (fun i => i + 2)
      ∧ (∀ j : ℕ,
          (pushSeq C (((List.range (C + 1)).map (fun i => i + 1)).take j)).length ≤ C)
      ∧ (∀ j : ℕ, j ≤ C →
          (pushSeq C (((List.range (C + 1)).map (fun i => i + 1)).take (j + 1))).getLast?
            = some (j + 1)) := by
  obtain ⟨C', rfl⟩ : ∃ C', C = C' + 1 := ⟨C - 1, by omega⟩
  have hxs : (List.range (C' + 1 + 1)).map (fun i => i + 1) =
      (List.range (C' + 1)).map (fun i => i + 1) ++ [C' + 2] := by
    rw [List.range_succ, List.map_append]
    rfl
  have hlen : ((List.range (C' + 1)).map (fun i => i + 1)).length = C' + 1 := by
    simp
  have hfull : pushSeq (C' + 1) ((List.range (C' + 1 + 1)).map (fun i => i + 1)) =
      (List.range (C' + 1)).map (fun i => i + 2) := by
    rw [hxs, pushSeq_append_singleton,
      pushSeq_eq_self (C' + 1) _ (le_of_eq hlen)]
    have hrange : (List.range (C' + 1)).map (fun i => i + 1) =
        1 :: ((List.range C').map (fun i => i + 2)) := by
      rw [List.range_succ_eq_map, List.map_cons, List.map_map]
      congr 1
    rw [hrange]
    simp only [put_with_drop_on_full, List.length_cons]
    rw [if_neg (by simp [List.length_map, List.length_range])]
    rw [List.range_succ, List.map_append]
    rfl
  refine ⟨hfull, fun j => pushSeq_length_le (C' + 1) _, fun j hj => ?_⟩
  by_cases hjC : j + 1 ≤ C' + 1
  · have htake : (((List.range (C' + 1 + 1)).map (fun i => i + 1)).take (j + 1)) =
        (List.range (j + 1)).map (fun i => i + 1) := by
      have hmin : min (j + 1) (C' + 1 + 1) = j + 1 := by omega
      rw [← List.map_take, List.take_range, hmin]
    rw [htake, pushSeq_eq_self (C' + 1) _ (by simp; omega)]
    rw [List.range_succ, List.map_append]
    simp
  · have hj1 : j = C' + 1 := by omega
    subst hj1
    have htake : (((List.range (C' + 1 + 1)).map (fun i => i + 1)).take (C' + 1 + 1)) =
        (List.range (C' + 1 + 1)).map (fun i => i + 1) := by
      apply List.take_of_length_le
      simp
    rw [htake, hfull, List.range_succ, List.map_append]
    simp

/-- Witness for C2 at capacity `C = 3`. -/
theorem relay_queue_drop_oldest_witness :
    pushSeq 3 ((List.range 4).map (fun i => i + 1)) =
        (List.range 3).map (fun i => i + 2)
      ∧ (∀ j : ℕ,
          (pushSeq 3 (((List.range 4).map (fun i => i + 1)).take j)).length ≤ 3)
      ∧ (∀ j : ℕ, j ≤ 3 →
          (pushSeq 3 (((List.range 4).map (fun i => i + 1)).take (j + 1))).getLast?
            = some (j + 1)) :=
  relay_queue_drop_oldest 3 (by decide)

/-- C4: every configuration field write stores a value inside the
legal range: for every input value, after the write the stored reduction
strength lies in `[0, 1]`, the stored voice gain lies in `[-20, 20]` dB,
and the stored profile sample count is an integer (by its `ℤ` type, the
image of the Python `int()` coercion) at least 1. -/
theorem config_setters_clamp (c : NoiseReductionConfig) (v : ℚ) :
    (0 ≤ (set_prop_decrease c v).prop_decrease
        ∧ (set_prop_decrease c v).prop_decrease ≤ 1)
      ∧ (-20 ≤ (set_voice_gain_db c v).voice_gain_db
        ∧ (set_voice_gain_db c v).voice_gain_db ≤ 20)
      ∧ 1 ≤ (set_noise_profile_samples c v).noise_profile_samples := by
  refine ⟨⟨?_, ?_⟩, ⟨?_, ?_⟩, ?_⟩
  · exact le_max_left 0 (min 1 v)
  · exact max_le (by norm_num) (min_le_left 1 v)
  · exact le_max_left (-20) (min 20 v)
  · exact max_le (by norm_num) (min_le_left 20 v)
  · exact le_max_left 1 (ratTrunc v)

/-- C5: the noise-reduction stage dispatches to the stationary
`nr.reduce_noise` call — whose noise reference is exactly the first
`N = len(frame)` samples of the profile and which carries the
reduction-strength and stationary-threshold parameters — if and only if
stationary mode is enabled in the snapshot, the profile is ready, and the
profile holds at least as many samples as the current frame; otherwise,
and only otherwise, it dispatches to the adaptive call carrying just the
frame and the reduction strength. -/
theorem noise_reduction_mode_dispatch (cfg : NoiseReductionConfig)
    (initialized : Bool) (profile filtered_audio : List ℚ) :
    (noise_reduction_invocation filtered_audio cfg initialized profile =
        NRCall.stationary filtered_audio (profile.take filtered_audio.length)
          cfg.prop_decrease cfg.n_std_thresh_stationary
      ↔ (cfg.use_stationary_mode = true ∧ initialized = true
          ∧ filtered_audio.length ≤ profile.length))
    ∧ (noise_reduction_invocation filtered_audio cfg initialized profile =
        NRCall.adaptive filtered_audio cfg.prop_decrease
      ↔ ¬ (cfg.use_stationary_mode = true ∧ initialized = true
          ∧ filtered_audio.length ≤ profile.length)) := by
  unfold noise_reduction_invocation
  by_cases h : cfg.use_stationary_mode = true ∧ initialized = true
      ∧ filtered_audio.length ≤ profile.length
  · rw [if_pos (by simp [h.1, h.2.1, h.2.2])]
    simp [h]
  · rw [if_neg (by
      simp only [Bool.and_eq_true, decide_eq_true_eq]
      tauto)]
    simp [h]

/-- Witness for the C5 dispatch equivalences at a concrete snapshot: default
configuration (stationary mode on), profile ready with 4 samples, frame of
3 samples. -/
theorem noise_reduction_mode_dispatch_witness :
    (noise_reduction_invocation [1, 2, 3] defaultConfig true [0, 0, 0, 0] =
        NRCall.stationary [1, 2, 3] ([(0 : ℚ), 0, 0, 0].take 3)
          defaultConfig.prop_decrease defaultConfig.n_std_thresh_stationary
      ↔ (defaultConfig.use_stationary_mode = true ∧ true = true
          ∧ [(1 : ℚ), 2, 3].length ≤ [(0 : ℚ), 0, 0, 0].length))
    ∧ (noise_reduction_invocation [1, 2, 3] defaultConfig true [0, 0, 0, 0] =
        NRCall.adaptive [1, 2, 3] defaultConfig.prop_decrease
      ↔ ¬ (defaultConfig.use_stationary_mode = true ∧ true = true
          ∧ [(1 : ℚ), 2, 3].length ≤ [(0 : ℚ), 0, 0, 0].length)) :=
  noise_reduction_mode_dispatch defaultConfig true [0, 0, 0, 0] [1, 2, 3]

/-! ## Lemmas about the noise-profile state machine -/

/-- With the master switch on, one processing cycle flips
`noise_profile_initialized` exactly when the bumped counter reaches the
configured sample count. -/
lemma process_chunk_initialized (ext : DSPExt) (c : List ℚ)
    (cfg : NoiseReductionConfig) (k : ℕ) (st : ProcState)
    (hen : cfg.noise_reduction_enabled = true) :
    (process_audio_chunk ext c cfg k st).2.noise_profile_initialized =
      (st.noise_profile_initialized
        || decide (k ≤ st.samples_collected + 1)) := by
  simp only [process_audio_chunk, hen, Bool.not_true, Bool.false_eq_true,
    if_false, initialize_noise_profile]
  by_cases hinit : st.noise_profile_initialized <;>
    by_cases hk : k ≤ st.samples_collected + 1 <;>
      simp [hinit, hk]

/-- With the master switch on, one processing cycle bumps the collection
counter while collecting and leaves it alone once the profile is ready. -/
lemma process_chunk_samples_collected (ext : DSPExt) (c : List ℚ)
    (cfg : NoiseReductionConfig) (k : ℕ) (st : ProcState)
    (hen : cfg.noise_reduction_enabled = true) :
    (process_audio_chunk ext c cfg k st).2.samples_collected =
      if st.noise_profile_initialized then st.samples_collected
      else st.samples_collected + 1 := by
  simp only [process_audio_chunk, hen, Bool.not_true, Bool.false_eq_true,
    if_false, initialize_noise_profile]
  by_cases hinit : st.noise_profile_initialized <;>
    by_cases hk : k ≤ st.samples_collected + 1 <;>
      simp [hinit, hk]

/-- With the master switch on, one processing cycle appends the raw frame
to the accumulator while collecting and leaves it alone once ready. -/
lemma process_chunk_noise_samples (ext : DSPExt) (c : List ℚ)
    (cfg : NoiseReductionConfig) (k : ℕ) (st : ProcState)
    (hen : cfg.noise_reduction_enabled = true) :
    (process_audio_chunk ext c cfg k st).2.noise_samples =
      if st.noise_profile_initialized then st.noise_samples
      else st.noise_samples ++ [c] := by
  simp only [process_audio_chunk, hen, Bool.not_true, Bool.false_eq_true,
    if_false, initialize_noise_profile]
  by_cases hinit : st.noise_profile_initialized <;>
    by_cases hk : k ≤ st.samples_collected + 1 <;>
      simp [hinit, hk]

/-- With the master switch on, one processing cycle writes the profile
(concatenating the accumulated frames) exactly at the transition to ready
and never rewrites it afterwards. -/
lemma process_chunk_noise_profile (ext : DSPExt) (c : List ℚ)
    (cfg : NoiseReductionConfig) (k : ℕ) (st : ProcState)
    (hen : cfg.noise_reduction_enabled = true) :
    (process_audio_chunk ext c cfg k st).2.noise_profile =
      if st.noise_profile_initialized then st.noise_profile
      else if k ≤ st.samples_collected + 1 then
        (st.noise_samples ++ [c]).flatten
      else st.noise_profile := by
  simp only [process_audio_chunk, hen, Bool.not_true, Bool.false_eq_true,
    if_false, initialize_noise_profile]
  by_cases hinit : st.noise_profile_initialized <;>
    by_cases hk : k ≤ st.samples_collected + 1 <;>
      simp [hinit, hk]

/-- Unrolling the processing loop by its last dequeued frame. -/
lemma run_chunks_append_singleton (ext : DSPExt) (cfg : NoiseReductionConfig)
    (k : ℕ) (frames : List (List ℚ)) (c : List ℚ) (st : ProcState) :
    run_chunks ext cfg k (frames ++ [c]) st =
      (process_audio_chunk ext c cfg k (run_chunks ext cfg k frames st)).2 := by
  simp [run_chunks, List.foldl_append]

/-- Full characterization of the profile state after any number of
processed frames, with the master switch on and sample count `k ≥ 1`:
the counter saturates at `k`, readiness holds exactly from the `k`-th
frame on, and the profile is the concatenation of the first `k` frames. -/
lemma run_chunks_profile_char (ext : DSPExt) (cfg : NoiseReductionConfig)
    (k : ℕ) (hk : 1 ≤ k) (hen : cfg.noise_reduction_enabled = true) :
    ∀ frames : List (List ℚ),
      (run_chunks ext cfg k frames initProcState).samples_collected
          = min frames.length k
        ∧ (run_chunks ext cfg k frames initProcState).noise_profile_initialized
          = decide (k ≤ frames.length)
        ∧ (run_chunks ext cfg k frames initProcState).noise_samples
          = frames.take k
        ∧ (run_chunks ext cfg k frames initProcState).noise_profile
          = if k ≤ frames.length then (frames.take k).flatten else [] := by
  intro frames
  induction frames using List.reverseRecOn with
  | nil =>
      refine ⟨by simp [run_chunks, initProcState], ?_, by simp [run_chunks, initProcState], ?_⟩
      · simp only [run_chunks, List.foldl_nil, initProcState, List.length_nil]
        have : ¬ k ≤ 0 := by omega
        simp [this]
      · simp only [run_chunks, List.foldl_nil, initProcState, List.length_nil]
        have : ¬ k ≤ 0 := by omega
        simp [this]
  | append_singleton frames c ih =>
      obtain ⟨h1, h2, h3, h4⟩ := ih
      rw [run_chunks_append_singleton]
      rw [process_chunk_samples_collected ext c cfg k _ hen,
        process_chunk_initialized ext c cfg k _ hen,
        process_chunk_noise_samples ext c cfg k _ hen,
        process_chunk_noise_profile ext c cfg k _ hen,
        h1, h2, h3, h4]
      simp only [List.length_append, List.length_singleton]
      by_cases hkl : k ≤ frames.length
      · have hend : decide (k ≤ frames.length) = true := by simp [hkl]
        have htk : (frames ++ [c]).take k = frames.take k := by
          simp [List.take_append_eq_append_take, Nat.sub_eq_zero_of_le hkl]
        refine ⟨?_, ?_, ?_, ?_⟩
        · simp [hend]; omega
        · simp [hkl]; omega
        · simp [hend, htk]
        · simp only [hend, if_true, if_pos hkl, if_pos (show k ≤ frames.length + 1 by omega), htk]
      · have hend : decide (k ≤ frames.length) = false := by simp [hkl]
        have hmin : min frames.length k = frames.length := by omega
        have hfr : frames.take k = frames :=
          List.take_of_length_le (by omega)
        have htk : (frames ++ [c]).take k = frames ++ [c] :=
          List.take_of_length_le (by simp; omega)
        refine ⟨?_, ?_, ?_, ?_⟩
        · simp only [hend, Bool.false_eq_true, if_false, hmin]
          omega
        · simp [hend, hmin]
        · simp only [hend, Bool.false_eq_true, if_false, hfr, htk]
        · by_cases hk1 : k ≤ frames.length + 1
          · simp only [hend, Bool.false_eq_true, if_false, hmin,
              if_pos hk1, hfr, htk]
          · have hl0 : ¬ k ≤ frames.length := by omega
            simp only [hend, Bool.false_eq_true, if_false, hmin,
              if_neg hk1, if_neg hl0]

/-- C6: with the profile sample count configured to `k ≥ 1` and noise
reduction enabled throughout, after any number `j` of processed frames the
profile is ready exactly when at least `k` frames have been accumulated —
never on an earlier frame — and from that point on its contents are
permanently the concatenation of the first `k` frames: it never
transitions again and is never mutated for the remainder of the run. -/
theorem noise_profile_ready_exactly_at_k (ext : DSPExt)
    (cfg : NoiseReductionConfig) (k : ℕ) (hk : 1 ≤ k)
    (hen : cfg.noise_reduction_enabled = true) (frames : List (List ℚ))
    (j : ℕ) :
    ((run_chunks ext cfg k (frames.take j) initProcState).noise_profile_initialized
        = true ↔ k ≤ min j frames.length)
      ∧ (k ≤ min j frames.length →
          (run_chunks ext cfg k (frames.take j) initProcState).noise_profile
            = (frames.take k).flatten) := by
  obtain ⟨_, h2, _, h4⟩ := run_chunks_profile_char ext cfg k hk hen (frames.take j)
  have hlen : (frames.take j).length = min j frames.length := by simp
  constructor
  · rw [h2, hlen]
    simp
  · intro hge
    have hkj : min k j = k := by omega
    rw [h4, hlen, if_pos hge, List.take_take, hkj]

/-- Witness for C6 at `k = 5`, six one-sample frames, the full run
(`j = 6`), the default (enabled) configuration and identity oracles. -/
theorem noise_profile_ready_exactly_at_k_witness :
    1 ≤ 5 ∧ defaultConfig.noise_reduction_enabled = true
      ∧ (((run_chunks trivialExt defaultConfig 5
            (([[(1 : ℚ)], [2], [3], [4], [5], [6]]).take 6)
            initProcState).noise_profile_initialized = true
          ↔ 5 ≤ min 6 ([[(1 : ℚ)], [2], [3], [4], [5], [6]]).length)
        ∧ (5 ≤ min 6 ([[(1 : ℚ)], [2], [3], [4], [5], [6]]).length →
            (run_chunks trivialExt defaultConfig 5
              (([[(1 : ℚ)], [2], [3], [4], [5], [6]]).take 6)
              initProcState).noise_profile
              = (([[(1 : ℚ)], [2], [3], [4], [5], [6]]).take 5).flatten)) :=
  ⟨by decide, rfl,
    noise_profile_ready_exactly_at_k trivialExt defaultConfig 5 (by decide)
      rfl [[1], [2], [3], [4], [5], [6]] 6⟩

/-- The cutoff clamp always lands in the closed interval
`[0.01, 0.99]`. -/
lemma clampCutoff_mem_Icc (x : ℚ) :
    clampCutoff x ∈ Set.Icc (0.01 : ℚ) 0.99 := by
  rw [Set.mem_Icc]
  unfold clampCutoff
  constructor
  · exact le_max_of_le_left (by norm_num)
  · exact max_le (by norm_num) (le_trans (min_le_right _ _) (by norm_num))

/-- C7 counterexample: for low cutoff 0 Hz at sample rate 48000 Hz the
Nyquist-normalized cutoff is clamped to exactly 0.01, which does not lie
in the open interval (0.01, 0.99) — the code clamps into the closed
interval, attaining its endpoints. -/
theorem bandpass_clamp_open_interval_counterexample :
    clampCutoff ((0 : ℚ) / (48000 / 2)) ∉ Set.Ioo (0.01 : ℚ) 0.99 := by
  have h : clampCutoff ((0 : ℚ) / (48000 / 2)) = 1 / 100 := by
    unfold clampCutoff
    norm_num
  rw [h, Set.mem_Ioo]
  norm_num

/-- C7 (amended): in the bandpass stage, for every pair of cutoff
frequencies and sample rate, both Nyquist-normalized cutoffs are clamped
to the closed interval `[0.01, 0.99]`, and whenever — on a filter
(re)build, i.e. when the cache does not already hold coefficients for this
exact parameter tuple — the clamped low cutoff is greater than or equal to
the clamped high cutoff, the stage bypasses filtering and returns the
input frame unchanged. -/
theorem bandpass_clamp_and_bypass (ext : DSPExt) (fc : FilterCache)
    (audio : List ℚ) (low_freq high_freq sample_rate : ℚ)
    (hmiss : fc.cache_key ≠ some (low_freq, high_freq, sample_rate)
      ∨ fc.coeffs = none) :
    clampCutoff (low_freq / (sample_rate / 2)) ∈ Set.Icc (0.01 : ℚ) 0.99
      ∧ clampCutoff (high_freq / (sample_rate / 2)) ∈ Set.Icc (0.01 : ℚ) 0.99
      ∧ (clampCutoff (high_freq / (sample_rate / 2))
            ≤ clampCutoff (low_freq / (sample_rate / 2)) →
          (apply_bandpass_filter ext fc audio low_freq high_freq
            sample_rate).1 = audio) := by
  refine ⟨clampCutoff_mem_Icc _, clampCutoff_mem_Icc _, fun hle => ?_⟩
  unfold apply_bandpass_filter get_bandpass_filter_coeffs
  by_cases hkey : fc.cache_key = some (low_freq, high_freq, sample_rate)
  · have hco : fc.coeffs = none := by
      rcases hmiss with h | h
      · exact absurd hkey h
      · exact h
    simp [hkey, hco, hle]
  · simp [hkey, hle]

/-- Witness for C7 (amended): empty cache, low cutoff 3000 Hz above high
cutoff 300 Hz at 48000 Hz — clamped cutoffs 1/8 ≥ 1/80, so the frame
passes through unchanged. -/
theorem bandpass_clamp_and_bypass_witness :
    clampCutoff ((3000 : ℚ) / (48000 / 2)) ∈ Set.Icc (0.01 : ℚ) 0.99
      ∧ clampCutoff ((300 : ℚ) / (48000 / 2)) ∈ Set.Icc (0.01 : ℚ) 0.99
      ∧ (clampCutoff ((300 : ℚ) / (48000 / 2))
            ≤ clampCutoff ((3000 : ℚ) / (48000 / 2)) →
          (apply_bandpass_filter trivialExt emptyFilterCache [1, 2] 3000 300
            48000).1 = [1, 2]) :=
  bandpass_clamp_and_bypass trivialExt emptyFilterCache [1, 2] 3000 300
    48000 (Or.inr rfl)

/-- C8: when the master noise-reduction switch is disabled in the snapshot,
the output frame of the pipeline is exactly the input frame hard-clipped to
`[-1, 1]` (the float32 coercion is the identity on exact samples), no
other stage runs, and the whole processing state — noise-profile
accumulator, its counter, readiness flag, profile and filter cache —
is left untouched. -/
theorem noise_reduction_disabled_passthrough (ext : DSPExt)
    (cfg : NoiseReductionConfig) (samples_needed : ℕ) (st : ProcState)
    (audio : List ℚ) (hdis : cfg.noise_reduction_enabled = false) :
    process_audio_chunk ext audio cfg samples_needed st
      = (audio.map (fun x => max (-1) (min 1 x)), st) := by
  simp [process_audio_chunk, hdis, finalize_audio]

/-- Witness for C8: a disabled configuration on the frame `[2, -3, 1/2]`
yields the clip `[1, -1, 1/2]` with the state unchanged. -/
theorem noise_reduction_disabled_passthrough_witness :
    process_audio_chunk trivialExt [2, -3, 1/2]
        (set_noise_reduction_enabled defaultConfig false) 5 initProcState
      = ([1, -1, 1/2], initProcState) := by
  rw [noise_reduction_disabled_passthrough trivialExt
    (set_noise_reduction_enabled defaultConfig false) 5 initProcState
    [2, -3, 1/2] rfl]
  norm_num

/-! ## Length preservation through the pipeline stages -/

/-- Finalization never changes the frame length. -/
lemma finalize_audio_length (audio : List ℚ) :
    (finalize_audio audio).length = audio.length := by
  simp [finalize_audio]

/-- Spectral gating never changes the frame length. -/
lemma apply_spectral_gating_length (ext : DSPExt) (audio : List ℚ)
    (threshold_db : ℚ) :
    (apply_spectral_gating ext audio threshold_db).length = audio.length := by
  unfold apply_spectral_gating
  split <;> simp

/-- The gating/gain stage never changes the frame length. -/
lemma apply_audio_effects_length (ext : DSPExt) (audio : List ℚ)
    (cfg : NoiseReductionConfig) :
    (apply_audio_effects ext audio cfg).length = audio.length := by
  unfold apply_audio_effects
  by_cases h1 : cfg.use_spectral_gating <;>
    by_cases h2 : cfg.voice_gain_db ≠ 0 <;>
      simp [h1, h2, apply_spectral_gating_length]

/-- If the external filter preserves length, so does the bandpass stage
(the bypass branch returns the input itself). -/
lemma apply_bandpass_filter_length (ext : DSPExt) (fc : FilterCache)
    (audio : List ℚ) (low_freq high_freq sample_rate : ℚ)
    (hlf : ∀ b a x zi, (ext.lfilter b a x zi).1.length = x.length) :
    (apply_bandpass_filter ext fc audio low_freq high_freq
      sample_rate).1.length = audio.length := by
  unfold apply_bandpass_filter
  rcases hr : (get_bandpass_filter_coeffs ext fc low_freq high_freq
      sample_rate).1 with _ | ba
  · simp [hr]
  · simp [hr, hlf]

/-- If both external reduction modes preserve length, so does the
noise-reduction stage. -/
lemma apply_noise_reduction_length (ext : DSPExt) (audio : List ℚ)
    (cfg : NoiseReductionConfig) (initialized : Bool) (profile : List ℚ)
    (hst : ∀ y yn pd th, (ext.reduce_noise_stationary y yn pd th).length = y.length)
    (had : ∀ y pd, (ext.reduce_noise_adaptive y pd).length = y.length) :
    (apply_noise_reduction ext audio cfg initialized profile).length
      = audio.length := by
  unfold apply_noise_reduction noise_reduction_invocation
  by_cases h : (cfg.use_stationary_mode && initialized
      && decide (audio.length ≤ profile.length)) = true
  · simp [h, hst]
  · simp [h, had]

/-- C10: for every input frame and configuration snapshot,
`process_audio_chunk` returns a frame with exactly the length of the input, under
the hypotheses that the delegated bandpass filter and the two delegated
noise-reduction modes each preserve the length of their input — the
spectral-gating, gain and finalization stages never change frame
length. -/
theorem process_chunk_preserves_length (ext : DSPExt)
    (cfg : NoiseReductionConfig) (samples_needed : ℕ) (st : ProcState)
    (audio : List ℚ)
    (hlf : ∀ b a x zi, (ext.lfilter b a x zi).1.length = x.length)
    (hst : ∀ y yn pd th, (ext.reduce_noise_stationary y yn pd th).length = y.length)
    (had : ∀ y pd, (ext.reduce_noise_adaptive y pd).length = y.length) :
    (process_audio_chunk ext audio cfg samples_needed st).1.length
      = audio.length := by
  unfold process_audio_chunk
  by_cases hen : cfg.noise_reduction_enabled
  · simp only [hen, Bool.not_true, Bool.false_eq_true, if_false]
    rw [finalize_audio_length, apply_audio_effects_length,
      apply_noise_reduction_length _ _ _ _ _ hst had]
    by_cases hbp : cfg.use_bandpass
    · simp [hbp, apply_bandpass_filter_length _ _ _ _ _ _ hlf]
    · simp [hbp]
  · simp only [Bool.not_eq_true] at hen
    simp [hen, finalize_audio_length]

/-- Witness for C10: identity oracles (which preserve length) on a
3-sample frame under the default configuration. -/
theorem process_chunk_preserves_length_witness :
    (process_audio_chunk trivialExt [1, 2, 3] defaultConfig 5
      initProcState).1.length = ([(1 : ℚ), 2, 3]).length :=
  process_chunk_preserves_length trivialExt defaultConfig 5 initProcState
    [1, 2, 3] (fun _ _ _ _ => rfl) (fun _ _ _ _ => rfl) (fun _ _ => rfl)

/-- C9: for every interactive input line whose first token (lowercased) is
not one of the recognized commands, `handle_command` prints the
unknown-command usage hint, leaves every field of the configuration store
unchanged, and returns `True` — the session continues. -/
theorem unknown_command_no_effect (parseFloat : String → Option ℚ)
    (cmd : String) (cfg : NoiseReductionConfig) (c0 : String)
    (rest : List String) (hparts : pySplit cmd = c0 :: rest)
    (hunk : pyLower c0 ∉ recognizedCommands) :
    handle_command parseFloat cmd cfg
      = (true, cfg, CmdOutput.unknownCommand (pyLower c0)) := by
  have hs := hunk
  simp only [recognizedCommands, List.mem_cons, List.mem_singleton,
    not_or] at hs
  obtain ⟨h1, h2, h3, h4, h5, h6, h7, h8, h9, h10, h11, h12, h13, h14, h15,
    h16, h17, h18, h19, h20, h21, h22, h23, h24, h25, h26⟩ := hs
  unfold handle_command
  rw [hparts]
  simp only [dispatch_command, h1, h2, h3, h4, h5, h6, h7, h8, h9, h10, h11,
    h12, h13, h14, h15, h16, h17, h18, h19, h20, h21, h22, h23, h24, h25,
    h26, or_self, if_false]

/-- Witness for C9: the unrecognized line `/frobnicate 1` on the default
configuration. -/
theorem unknown_command_no_effect_witness :
    handle_command (fun _ => none) "/frobnicate 1" defaultConfig
      = (true, defaultConfig, CmdOutput.unknownCommand (pyLower "/frobnicate")) :=
  unknown_command_no_effect (fun _ => none) "/frobnicate 1" defaultConfig
    "/frobnicate" ["1"] (by decide) (by decide)

end SDRPP
